import Mathlib

/-!
Verification development for the AGOL backup restore utility
(`restore.py`).  The Python source is shallowly embedded: every portal
(SDK) call is represented by an explicit operation in a trace, the
outcomes of the external calls are supplied by an `Env` record, and the
temporary-directory bookkeeping is modelled by an explicit list of
existing directories.  All definitions below are translated directly
from the source file.
-/

namespace AGOLRestore

/-! ## Path helpers (os.path counterparts used by restore.py) -/

/-! String primitives, modelled over the character list so that every
definition evaluates by kernel reduction.  `charLower` mirrors
str.lower on the ASCII range, which covers every suffix and fixed name
the script compares. -/

/-- ASCII lower-casing of one character. -/
def charLower (c : Char) : Char :=
  if 'A' ≤ c && c ≤ 'Z' then Char.ofNat (c.toNat + 32) else c

/-- str.lower (ASCII range). -/
def strToLower (s : String) : String :=
  String.mk (s.data.map charLower)

/-- str.endswith: exact suffix match. -/
def strEndsWith (s suffix : String) : Bool :=
  List.isSuffixOf suffix.data s.data

/-- str.startswith: exact prefix match. -/
def strStartsWith (s pre : String) : Bool :=
  List.isPrefixOf pre.data s.data

/-- One fuel-indexed step list of str.replace; the fuel is an upper
bound on the number of scanned characters, supplied as the length of
the subject below, so the zero-fuel arm is never reached there. -/
def replaceFuel (pat rep : List Char) : Nat → List Char → List Char
  | 0, s => s
  | _ + 1, [] => []
  | fuel + 1, c :: cs =>
    if pat.isPrefixOf (c :: cs) && decide (pat ≠ []) then
      rep ++ replaceFuel pat rep fuel ((c :: cs).drop pat.length)
    else c :: replaceFuel pat rep fuel cs

/-- str.replace: every non-overlapping occurrence, left to right. -/
def strReplace (s pat rep : String) : String :=
  String.mk (replaceFuel pat.data rep.data s.data.length s.data)

/-- Truncation s[:n] on a Python string. -/
def strTake (s : String) (n : Nat) : String :=
  String.mk (s.data.take n)

/-- os.path.basename: the part of the path after the last slash. -/
def basename (s : String) : String :=
  String.mk ((s.data.reverse.takeWhile (fun c => c ≠ '/')).reverse)

/-- os.path.dirname: everything before the last slash; trailing slashes
of the head are stripped unless the head consists only of slashes. -/
def dirname (s : String) : String :=
  let r := s.data.reverse.dropWhile (fun c => c ≠ '/')
  if r.all (fun c => c = '/') then String.mk r.reverse
  else String.mk ((r.dropWhile (fun c => c = '/')).reverse)

/-- Helper for `splitextBase`: scanning the reversed character list,
find the extension to strip.  Returns the remaining (still reversed)
characters when the path has an extension in its final component, i.e.
a last dot preceded (within the basename) by some non-dot character. -/
def stripExtRev : List Char → Option (List Char)
  | [] => none
  | c :: cs =>
    if c = '/' then none
    else if c = '.' then
      if (cs.takeWhile (fun x => x ≠ '/')).any (fun x => x ≠ '.') then some cs
      else none
    else stripExtRev cs

/-- os.path.splitext(p)[0]: the path without its final extension. -/
def splitextBase (s : String) : String :=
  match stripExtRev s.data.reverse with
  | some cs => String.mk cs.reverse
  | none => s

/-- Path `q` is the directory `p` itself or lies beneath it. -/
def pathIsUnder (q p : String) : Bool :=
  q == p || strStartsWith q (p ++ "/")

/-- The set of currently existing temporary directories. -/
abbrev FS := List String

/-- os.makedirs(path, exist_ok=True) as used by `ensure_dir`. -/
def ensureDir (p : String) (fs : FS) : FS :=
  if fs.contains p then fs else p :: fs

/-- shutil.rmtree: removes the directory and everything beneath it. -/
def rmtree (p : String) (fs : FS) : FS :=
  fs.filter (fun q => !(pathIsUnder q p))

/-! ## Backup-format detection (`is_contentexport`) -/

/-- Function `is_contentexport`: case-insensitive exact suffix match on
".contentexport" (restore.py line 84). -/
def is_contentexport (file_path : String) : Bool :=
  strEndsWith (strToLower file_path) ".contentexport"

/-! ## Extracted-directory contents and the artifact finders -/

/-- The contents of the extraction directory as the finders observe
them: `top` is os.listdir (files and directories), `topFiles` is the
subset of top-level names that are regular files, and `walk` is the
sequence of (root, dirs, files) triples produced by os.walk. -/
structure DirTree where
  top : List String
  topFiles : List String
  walk : List (String × List String × List String)
deriving Repr, DecidableEq

/-- Name filter of `find_metadata_file` (restore.py line 363). -/
def isMetaName (f : String) : Bool :=
  strEndsWith f "_metadata.json" && !(strEndsWith f "_metadata_full.json")

/-- Name filter of `find_data_file` (restore.py line 380). -/
def isDataName (f : String) : Bool :=
  strEndsWith f "_data.json"

/-- Name filter of `find_thumbnail` (restore.py line 397). -/
def isThumbName (f : String) : Bool :=
  strToLower f == "thumbnail.png" || strToLower f == "thumbnail.jpg" ||
    strToLower f == "thumbnail.jpeg"

/-- The os.walk fallback shared by the finders: the first file matching
the predicate, scanning roots in walk order. -/
def walkFindFile (walk : List (String × List String × List String))
    (p : String → Bool) : Option String :=
  match walk with
  | [] => none
  | (root, _, files) :: rest =>
    match files.find? p with
    | some f => some (root ++ "/" ++ f)
    | none => walkFindFile rest p

/-- Function `find_metadata_file`: top level first, then full recursive walk. -/
def find_metadata_file (extract_dir : String) (d : DirTree) : Option String :=
  match d.top.find? isMetaName with
  | some f => some (extract_dir ++ "/" ++ f)
  | none => walkFindFile d.walk isMetaName

/-- Function `find_data_file`: top level first, then full recursive walk. -/
def find_data_file (extract_dir : String) (d : DirTree) : Option String :=
  match d.top.find? isDataName with
  | some f => some (extract_dir ++ "/" ++ f)
  | none => walkFindFile d.walk isDataName

/-- Function `find_thumbnail`: top level first, then full recursive walk. -/
def find_thumbnail (extract_dir : String) (d : DirTree) : Option String :=
  match d.top.find? isThumbName with
  | some f => some (extract_dir ++ "/" ++ f)
  | none => walkFindFile d.walk isThumbName

/-- Function `find_resources_zip`: an isfile check on the exact top-level name
"resources.zip" first, then a walk looking for that file name. -/
def find_resources_zip (extract_dir : String) (d : DirTree) : Option String :=
  if d.topFiles.contains "resources.zip" then
    some (extract_dir ++ "/" ++ "resources.zip")
  else
    match d.walk.find? (fun e => e.2.2.contains "resources.zip") with
    | some e => some (e.1 ++ "/" ++ "resources.zip")
    | none => none

/-! ## Portal data model -/

/-- A portal item as visible to the script (fields it reads). -/
structure Item where
  id : String
  title : String
  itype : String
deriving Repr, DecidableEq

/-- A metadata dictionary loaded from `*_metadata.json`, restricted to
the keys the script reads.  A field is `none` when the key is absent.
An entirely absent / empty / unparsable metadata dictionary is
represented by `Option ItemMeta = none` at the use sites, matching the
Python pattern `load_json_if_exists(...) or ` followed by the empty
dict. -/
structure ItemMeta where
  title : Option String := none
  mtype : Option String := none
  tags : List String := []
  snippet : Option String := none
  description : Option String := none
  accessInformation : Option String := none
  licenseInfo : Option String := none
deriving Repr, DecidableEq

/-- Manifest information for one entry of a .contentexport package, as
returned by `ocm.list_items`. -/
structure PkgInfo where
  title : String
  itype : String
deriving Repr, DecidableEq

/-- One element of the list returned by `ocm.import_content`, together
with the behaviour of the attribute / update calls made on it:
`accessRaises` models `item.id` raising (the per-item loop skips the
entry), `renameRaises` models `item.update` raising (warned and the
entry still counts as imported). -/
structure ImpItem where
  id : String
  title : String
  itype : String
  accessRaises : Bool
  renameRaises : Bool
deriving Repr, DecidableEq

/-- One portal (SDK) call made by the script.  Operations that create
items carry the id the portal assigned; `deleteItem` is included so
that the never-deletes invariant is expressible, the embedding never
emits it. -/
inductive Op where
  | search (query : String)
  | addItem (title : String) (itype : String) (newId : String)
  | createFolder (name : String)
  | getItem (id : String)
  | updateItem (id : String) (newTitle : String)
  | deleteItem (id : String)
  | importContent (ids : List String)
  | publish (name : String) (newId : String)
  | createService (name : String) (title : String) (newId : String)
  | addResource (id : String) (name : String)
deriving Repr, DecidableEq

/-- Which restore path `restore_backup` dispatched to. -/
inductive Fmt where
  | ocm
  | zip
deriving Repr, DecidableEq

/-- Outcomes of every external call the script makes, supplied by the
environment.  For a call that can raise, `none` (at the outer level)
models the exception. -/
structure Env where
  -- restore_backup entry checks
  pathExists : Bool
  pathIsFile : Bool
  sizeRaises : Bool
  connectRaises : Bool
  -- restore_contentexport
  ceIsFile : Bool
  hasOCM : Bool
  listItems : Option (List (String × PkgInfo))
  importResult : Option (Option (List ImpItem))
  verifyGet : String → Option (Option Item)
  -- restore_zip / extract_zip
  zipIsFile : Bool
  extractRaises : Bool
  dirTree : DirTree
  metaJson : Option ItemMeta
  dataTruthy : Bool
  -- create_item
  searchRes : Option (List Item)
  addRes : Option String
  folders : List String
  createFolderRaises : Bool
  -- restore_feature_service_from_zip
  gdbZipExtractRaises : Bool
  gdbZipWalk : List (String × List String × List String)
  publishRes : Option (Option String)
  getAfterPublish : Option Unit
  createServiceRes : Option (Option String)
  -- item retrieval and resources after creation
  getCreatedItem : Option (Option Unit)
  resourcesExtractRaises : Bool
  resourceFiles : List String
  resourceAddFails : String → Bool

/-! ## Artifact loading (`load_backup_artifacts`) -/

/-- The resolved artifact set (return value of `load_backup_artifacts`);
every artifact is optional. -/
structure Artifacts where
  base_title : String
  meta : Option ItemMeta
  dataTruthy : Bool
  thumbnail : Option String
  resources_zip : Option String
  extract_dir : String
deriving Repr, DecidableEq

/-- Function `load_backup_artifacts`: locate the artifacts and derive the base
title.  With no metadata file the metadata is the empty dict and the
base title is the extraction directory's base name; otherwise the title
comes from the metadata (falsy values fall back to the metadata file
name with "_metadata.json" removed). -/
def load_backup_artifacts (env : Env) (extract_dir : String) : Artifacts :=
  let mf := find_metadata_file extract_dir env.dirTree
  let df := find_data_file extract_dir env.dirTree
  let meta : Option ItemMeta :=
    match mf with
    | none => none
    | some _ => env.metaJson
  let base_title :=
    match mf with
    | none => basename extract_dir
    | some mfp =>
      match meta.bind ItemMeta.title with
      | some t =>
        if t == "" then strReplace (basename mfp) "_metadata.json" "" else t
      | none => strReplace (basename mfp) "_metadata.json" ""
  let dataT :=
    match df with
    | none => false
    | some _ => env.dataTruthy
  ⟨base_title, meta, dataT, find_thumbnail extract_dir env.dirTree,
    find_resources_zip extract_dir env.dirTree, extract_dir⟩

/-! ## Generic item creation (`create_item`) -/

/-- Title after the duplicate check in `create_item`: search the portal
for the exact title; if any results exist, append a count-based suffix
(restore.py lines 487-493).  `none` for the search result models the
search raising, which is caught and leaves the title unchanged. -/
def collisionTitle (searchRes : Option (List Item)) (title0 : String) : String :=
  match searchRes with
  | some existing =>
    if existing.isEmpty then title0
    else title0 ++ "_" ++ toString (existing.length + 1)
  | none => title0

/-- The item type used by `create_item` (line 495): the passed type if
truthy, else the metadata type, defaulting to "Web Map". -/
def resolvedType (itype? : Option String) (meta : Option ItemMeta) : String :=
  match itype? with
  | some t => if t == "" then (meta.bind ItemMeta.mtype).getD "Web Map" else t
  | none => (meta.bind ItemMeta.mtype).getD "Web Map"

/-- The folder handling of `create_item` (lines 510-521): reuse an
existing folder, otherwise create one; a raise is caught and leaves
the item destined for the root folder. -/
def folderOps (env : Env) (folder : Option String) : List Op :=
  match folder with
  | none => []
  | some fname =>
    if env.folders.contains fname then []
    else if env.createFolderRaises then []
    else [Op.createFolder fname]

/-- Function `create_item`: duplicate-title check, type resolution, optional
folder handling and the add call.  Returns the new item id, or an error
when the add call raises (which `create_item` re-raises). -/
def create_item (env : Env) (base_title : String) (meta : Option ItemMeta)
    (itype? : Option String) (folder : Option String) :
    Except Unit String × List Op :=
  let title0 := (meta.bind ItemMeta.title).getD base_title
  let title := collisionTitle env.searchRes title0
  let sOp := Op.search ("title:\"" ++ title0 ++ "\"")
  let itype := resolvedType itype? meta
  match env.addRes with
  | some newId =>
    (.ok newId, sOp :: folderOps env folder ++ [Op.addItem title itype newId])
  | none => (.error (), sOp :: folderOps env folder)

/-! ## Resource restoration (`restore_resources`) -/

/-- Function `restore_resources`: extract resources.zip into a temp directory
next to it, add every file to the new item, then remove the temp
directory.  If extraction raises the temp directory is left in place
(the surrounding directory removal in `restore_zip` still covers it). -/
def restore_resources (env : Env) (itemId : String) (rz : Option String)
    (fs : FS) : FS × List Op :=
  match rz with
  | none => (fs, [])
  | some rzp =>
    let temp := dirname rzp ++ "/resources_temp"
    let fs1 := ensureDir temp fs
    if env.resourcesExtractRaises then (fs1, [])
    else
      let ops := env.resourceFiles.filterMap
        (fun f => if env.resourceAddFails f then none
                  else some (Op.addResource itemId f))
      (rmtree temp fs1, ops)

/-! ## Feature-service restore from a zip backup -/

/-- Function `find_geodatabase`: walk the extraction directory; in each visited
root, a `.gdb` sub-directory wins over a `*_export.zip` file; the first
hit in walk order is returned. -/
def find_geodatabase (walk : List (String × List String × List String)) :
    Option String :=
  match walk with
  | [] => none
  | (root, dirs, files) :: rest =>
    match dirs.find? (fun d => strEndsWith d ".gdb") with
    | some d => some (root ++ "/" ++ d)
    | none =>
      match files.find? (fun f => strEndsWith f "_export.zip") with
      | some f => some (root ++ "/" ++ f)
      | none => find_geodatabase rest

/-- The re-scan for a `.gdb` folder after extracting `*_export.zip`
(restore.py lines 713-717): the inner `break` only leaves the per-root
loop, so a later root's first `.gdb` directory overwrites the value. -/
def findGdbAfterExtract (walk : List (String × List String × List String))
    (init : String) : String :=
  walk.foldl
    (fun acc e =>
      match e.2.1.find? (fun d => strEndsWith d ".gdb") with
      | some d => e.1 ++ "/" ++ d
      | none => acc)
    init

/-- The service name used by `create_feature_service_item`: spaces
replaced by underscores and truncated to 50 characters (line 843). -/
def serviceNameOf (title : String) : String :=
  strTake (strReplace title " " "_") 50

/-- Function `create_feature_service_item`: the bare empty-service fallback.
Returns the created service id; any failure (raise or falsy result of
create_service) yields `none`. -/
def create_feature_service_item (env : Env) (title : String) :
    Option String × List Op :=
  match env.createServiceRes with
  | none => (none, [])
  | some none => (none, [])
  | some (some sid) =>
    (some sid, [Op.createService (serviceNameOf title) title sid])

/-- The publish attempt of `restore_feature_service_from_zip` (lines
729-790): publish the geodatabase; on success optionally re-fetch the
published item and update its metadata; when the publish call raises,
fall back to `create_feature_service_item`. -/
def publishPhase (env : Env) (meta : Option ItemMeta) (new_title : String)
    (keep_metadata : Bool) : Option String × List Op :=
  match env.publishRes with
  | some (some pid) =>
    let mOps :=
      if keep_metadata && meta.isSome then
        match env.getAfterPublish with
        | some _ => [Op.getItem pid, Op.updateItem pid new_title]
        | none => [Op.getItem pid]
      else []
    (some pid, Op.publish new_title pid :: mOps)
  | some none => (none, [])
  | none => create_feature_service_item env new_title

/-- Result triple of the zip-path functions: the created item id (or
`none`), the directory state, and the portal-call trace. -/
structure ZipOut where
  result : Option String
  fs : FS
  trace : List Op
deriving Repr

/-- Function `restore_feature_service_from_zip`: locate a geodatabase, extract
it when it is a zip, and run the publish phase. -/
def restore_feature_service_from_zip (env : Env) (extract_dir : String)
    (meta : Option ItemMeta) (new_title : String) (keep_metadata : Bool)
    (fs : FS) : ZipOut :=
  match find_geodatabase env.dirTree.walk with
  | none => ⟨none, fs, []⟩
  | some gdb0 =>
    if strEndsWith gdb0 ".zip" then
      let ged := dirname gdb0 ++ "/gdb_extract"
      let fs1 := ensureDir ged fs
      if env.gdbZipExtractRaises then ⟨none, fs1, []⟩
      else
        let gdb := findGdbAfterExtract env.gdbZipWalk gdb0
        if strEndsWith gdb ".gdb" then
          let (r, ops) := publishPhase env meta new_title keep_metadata
          ⟨r, fs1, ops⟩
        else ⟨none, fs1, []⟩
    else
      let (r, ops) := publishPhase env meta new_title keep_metadata
      ⟨r, fs, ops⟩

/-! ## Zip restore (`restore_zip`) -/

/-- The tail of `restore_zip`'s body after the creation attempt: a
failed creation aborts; otherwise the created item is re-fetched and,
when retrievable, its resources restored. -/
def attachResources (env : Env) (rz : Option String)
    (created : Option String × FS × List Op) : ZipOut :=
  match created with
  | (none, fs1, ops) => ⟨none, fs1, ops⟩
  | (some iid, fs1, ops) =>
    match env.getCreatedItem with
    | none => ⟨none, fs1, ops ++ [Op.getItem iid]⟩
    | some none => ⟨some iid, fs1, ops ++ [Op.getItem iid]⟩
    | some (some _) =>
      let p := restore_resources env iid rz fs1
      ⟨some iid, p.1, ops ++ [Op.getItem iid] ++ p.2⟩

/-- The body of `restore_zip`'s try block after a successful
extraction: load artifacts, branch on the declared type, create the
item and restore its resources. -/
def restore_zip_body (env : Env) (base : String) (keep_metadata : Bool)
    (ts : String) (fs : FS) : ZipOut :=
  let art := load_backup_artifacts env base
  let item_type := (art.meta.bind ItemMeta.mtype).getD "Web Map"
  let new_title := art.base_title ++ "_" ++ ts
  let created : Option String × FS × List Op :=
    if item_type == "Feature Service" then
      let o := restore_feature_service_from_zip env base art.meta new_title
        keep_metadata fs
      (o.result, o.fs, o.trace)
    else
      match create_item env new_title (if keep_metadata then art.meta else none)
          (some item_type) none with
      | (.error _, ops) => (none, fs, ops)
      | (.ok iid, ops) => (some iid, fs, ops)
  attachResources env art.resources_zip created

/-- Function `restore_zip`: extract the backup (the directory is created before
the zip is read, and remains when the extraction itself raises, since
the finally clause only fires once `extract_dir` was assigned), run the
body, and in all other cases remove the extraction directory in the
finally clause. -/
def restore_zip (env : Env) (zip_path : String) (keep_metadata : Bool)
    (ts : String) (fs : FS) : ZipOut :=
  if !env.zipIsFile then ⟨none, fs, []⟩
  else
    let base := splitextBase zip_path
    let fs1 := ensureDir base fs
    if env.extractRaises then ⟨none, fs1, []⟩
    else
      let o := restore_zip_body env base keep_metadata ts fs1
      ⟨o.result, rmtree base o.fs, o.trace⟩

/-! ## ContentExport restore (`restore_contentexport`) -/

/-- Result of `restore_contentexport`: the success flag and item-id
list the function returns, plus the verified and reported-unverified
id lists and the portal-call trace. -/
structure CEOut where
  success : Bool
  ids : Option (List String)
  verified : List String
  unverified : List String
  trace : List Op
deriving Repr

/-- Did the verification fetch return an item for this id? -/
def isFound (env : Env) (i : String) : Bool :=
  match env.verifyGet i with
  | some (some _) => true
  | _ => false

/-- Did the verification fetch return nothing (the "not found after
import" warning case)? -/
def isNotFound (env : Env) (i : String) : Bool :=
  match env.verifyGet i with
  | some none => true
  | _ => false

/-- The entries of the imported list whose `.id` access succeeds (the
per-item loop at lines 232-259 skips the others). -/
def ceProcessed (items : List ImpItem) : List ImpItem :=
  items.filter (fun it => !it.accessRaises)

/-- The rename calls of the per-item loop: every processed entry is
updated with the run-wide timestamp appended to its title. -/
def ceUpdOps (ts : String) (items : List ImpItem) : List Op :=
  (ceProcessed items).map (fun it => Op.updateItem it.id (it.title ++ "_" ++ ts))

/-- The feature-service-conflict searches of step 3.5: only made when
the package declares feature services and none was imported. -/
def ceConflictOps (pkg : List (String × PkgInfo)) (items : List ImpItem) :
    List Op :=
  let fsImported := (ceProcessed items).filter (fun it => it.itype == "Feature Service")
  let pkgFS := pkg.filter (fun p => p.2.itype == "Feature Service")
  if pkgFS.isEmpty || !fsImported.isEmpty then []
  else pkgFS.map (fun p =>
    Op.search ("title:\"" ++ p.2.title ++ "\" type:\"Feature Service\""))

/-- Function `restore_contentexport`: list the package, bulk-import it, rename
every processed entry with the run timestamp, emit the
feature-service-conflict searches, and verify every imported id. -/
def restore_contentexport (env : Env) (ts : String) : CEOut :=
  if !env.ceIsFile then ⟨false, none, [], [], []⟩
  else if !env.hasOCM then ⟨false, none, [], [], []⟩
  else
    match env.listItems with
    | none => ⟨false, none, [], [], []⟩
    | some pkg =>
      if pkg.isEmpty then ⟨false, none, [], [], []⟩
      else
        match env.importResult with
        | none => ⟨false, none, [], [], []⟩
        | some none => ⟨false, none, [], [], []⟩
        | some (some items) =>
          let item_ids := (ceProcessed items).map ImpItem.id
          let baseTrace := Op.importContent (items.map ImpItem.id) ::
            ceUpdOps ts items ++ ceConflictOps pkg items
          if item_ids.isEmpty then ⟨false, none, [], [], baseTrace⟩
          else
            let vOps := item_ids.map Op.getItem
            let verified := item_ids.filter (isFound env)
            let unver := item_ids.filter (isNotFound env)
            let trace := baseTrace ++ vOps
            if verified.isEmpty then ⟨true, some item_ids, verified, unver, trace⟩
            else ⟨true, some verified, verified, unver, trace⟩

/-! ## Dispatcher (`restore_backup`) and CLI (`parse_args`, `main`) -/

/-- Result of `restore_backup`: success flag, the dispatched format
(`none` when the run failed before dispatch), the call trace and the
directory state. -/
structure RunOut where
  success : Bool
  fmt : Option Fmt
  trace : List Op
  fs : FS
deriving Repr

/-- The try block of `restore_backup` (lines 902-922): connect, then
dispatch by format.  An error value models an exception escaping the
inner restore logic (only the connection step can raise here; both
restore paths catch their own exceptions). -/
def restore_backup_body (env : Env) (backup_path : String)
    (keep_metadata : Bool) (ts : String) (fs : FS) :
    Except Unit (Bool × Fmt × List Op × FS) :=
  if env.connectRaises then .error ()
  else if is_contentexport backup_path then
    let o := restore_contentexport env ts
    .ok (o.success && !(o.ids.getD []).isEmpty, .ocm, o.trace, fs)
  else
    let o := restore_zip env backup_path keep_metadata ts fs
    .ok (o.result.isSome, .zip, o.trace, o.fs)

/-- Function `restore_backup`: existence and file checks, then the try block;
an exception escaping the try block is caught, logged and turned into
a failure result. -/
def restore_backup (env : Env) (backup_path : String) (keep_metadata : Bool)
    (ts : String) (fs : FS) : RunOut :=
  if !env.pathExists then ⟨false, none, [], fs⟩
  else if !env.pathIsFile then ⟨false, none, [], fs⟩
  else if env.sizeRaises then ⟨false, none, [], fs⟩
  else
    match restore_backup_body env backup_path keep_metadata ts fs with
    | .error _ => ⟨false, none, [], fs⟩
    | .ok (succ, fmt, trace, fs') => ⟨succ, some fmt, trace, fs'⟩

/-- Parsed command-line options. -/
structure Args where
  backup : String
  connection : String
  overwrite : Bool
  keep_metadata : Bool
deriving Repr, DecidableEq

/-- argparse store_true semantics: `true` when the flag is present,
the declared default otherwise. -/
def storeTrue (present : Bool) (default : Bool) : Bool :=
  match present with
  | true => true
  | false => default

/-- The value following a `--key` option, or the default. -/
def argValue (argv : List String) (key : String) (default : String) : String :=
  match argv with
  | [] => default
  | a :: rest => if a == key then rest.headD default else argValue rest key default

/-- Function `parse_args`: `--backup` takes a value, `--connection` defaults to
"home", `--overwrite` is store_true default False, `--keep-metadata`
is store_true with default True. -/
def parse_args (argv : List String) : Args :=
  ⟨argValue argv "--backup" "",
   argValue argv "--connection" "home",
   storeTrue (argv.contains "--overwrite") false,
   storeTrue (argv.contains "--keep-metadata") true⟩

/-- Function `main`: parse the arguments, run the restore, exit 0 on success
and 1 on failure. -/
def main_exit (env : Env) (argv : List String) (ts : String) (fs : FS) : Nat :=
  let args := parse_args argv
  let r := restore_backup env args.backup args.keep_metadata ts fs
  if r.success then 0 else 1

/-! ## The never-deletes / never-mutates-pre-existing invariant -/

/-- Ids of the items an operation created on the portal. -/
def createdOf : Op → List String
  | .addItem _ _ i => [i]
  | .importContent ids => ids
  | .publish _ i => [i]
  | .createService _ _ i => [i]
  | _ => []

/-- All ids created along a trace. -/
def createdAll (t : List Op) : List String :=
  (t.map createdOf).flatten

/-- An operation is harmless with respect to the pre-existing portal
content when it is not a delete and mutates (update, resource upload)
only items in the given created set. -/
def targetsCreated (created : List String) : Op → Bool
  | .deleteItem _ => false
  | .updateItem i _ => decide (i ∈ created)
  | .addResource i _ => decide (i ∈ created)
  | _ => true

/-- A trace is benign relative to a set of already-created ids: it
never deletes, and every mutation targets an item created earlier in
the run. -/
def benign (created : List String) : List Op → Bool
  | [] => true
  | op :: rest => targetsCreated created op && benign (created ++ createdOf op) rest

theorem createdAll_nil : createdAll [] = [] := rfl

theorem createdAll_cons (op : Op) (t : List Op) :
    createdAll (op :: t) = createdOf op ++ createdAll t := by
  simp [createdAll]

theorem benign_cons (c : List String) (op : Op) (t : List Op) :
    benign c (op :: t) =
      (targetsCreated c op && benign (c ++ createdOf op) t) := rfl

theorem benign_append (c : List String) (t1 t2 : List Op) :
    benign c (t1 ++ t2) = (benign c t1 && benign (c ++ createdAll t1) t2) := by
  induction t1 generalizing c with
  | nil => simp [benign, createdAll]
  | cons op rest ih =>
    simp [benign, createdAll_cons, ih, List.append_assoc, Bool.and_assoc]

theorem targetsCreated_mono {c c' : List String} (h : ∀ x, x ∈ c → x ∈ c')
    (op : Op) (hb : targetsCreated c op = true) : targetsCreated c' op = true := by
  cases op <;> simp_all [targetsCreated]

theorem benign_mono {c c' : List String} (t : List Op)
    (h : ∀ x, x ∈ c → x ∈ c') (hb : benign c t = true) : benign c' t = true := by
  induction t generalizing c c' with
  | nil => simp [benign]
  | cons op rest ih =>
    simp only [benign, Bool.and_eq_true] at hb ⊢
    refine ⟨targetsCreated_mono h op hb.1, ih ?_ hb.2⟩
    intro x hx
    rcases List.mem_append.mp hx with hx | hx
    · exact List.mem_append_left _ (h x hx)
    · exact List.mem_append_right _ hx

/-- Traces made only of operations that neither delete nor mutate are
benign in any context. -/
theorem benign_of_passive (t : List Op) (c : List String)
    (h : ∀ op ∈ t, targetsCreated [] op = true) :
    benign c t = true := by
  induction t generalizing c with
  | nil => simp [benign]
  | cons op rest ih =>
    simp only [benign, Bool.and_eq_true]
    refine ⟨?_, ih _ (fun o ho => h o (List.mem_cons_of_mem _ ho))⟩
    exact targetsCreated_mono (by simp) op (h op (List.mem_cons_self _ _))

/-- A list of update operations whose targets all lie in the created
set is benign. -/
theorem benign_updates {α : Type} (l : List α) (c : List String)
    (idOf : α → String) (tOf : α → String)
    (h : ∀ a ∈ l, idOf a ∈ c) :
    benign c (l.map (fun a => Op.updateItem (idOf a) (tOf a))) = true := by
  induction l generalizing c with
  | nil => simp [benign]
  | cons a rest ih =>
    simp only [List.map_cons, benign, targetsCreated, createdOf, Bool.and_eq_true,
      List.append_nil, decide_eq_true_eq]
    exact ⟨h a (List.mem_cons_self _ _),
      ih c (fun b hb => h b (List.mem_cons_of_mem _ hb))⟩

/-- The resource-upload operations produced by `restore_resources` are
benign once the target item is in the created set. -/
theorem benign_addResources (fins : List String) (p : String → Bool)
    (iid : String) (c : List String) (h : iid ∈ c) :
    benign c (fins.filterMap
      (fun f => if p f then none else some (Op.addResource iid f))) = true := by
  induction fins generalizing c with
  | nil => simp [benign]
  | cons f rest ih =>
    by_cases hp : p f
    · simpa [hp] using ih c h
    · simp only [List.filterMap_cons, hp, if_false, benign, targetsCreated,
        createdOf, Bool.and_eq_true, List.append_nil, decide_eq_true_eq]
      exact ⟨h, ih c h⟩

theorem benign_search_list {α : Type} (l : List α) (c : List String)
    (qOf : α → String) :
    benign c (l.map (fun a => Op.search (qOf a))) = true := by
  apply benign_of_passive
  intro op hop
  rcases List.mem_map.mp hop with ⟨a, _, rfl⟩
  rfl

theorem benign_get_list (l : List String) (c : List String) :
    benign c (l.map Op.getItem) = true := by
  apply benign_of_passive
  intro op hop
  rcases List.mem_map.mp hop with ⟨a, _, rfl⟩
  rfl

theorem createdAll_append (t1 t2 : List Op) :
    createdAll (t1 ++ t2) = createdAll t1 ++ createdAll t2 := by
  simp [createdAll]

theorem createdAll_map_updates {α : Type} (l : List α)
    (idOf tOf : α → String) :
    createdAll (l.map (fun a => Op.updateItem (idOf a) (tOf a))) = [] := by
  induction l with
  | nil => rfl
  | cons a rest ih => simpa [createdAll_cons, createdOf] using ih

theorem createdAll_map_search {α : Type} (l : List α) (qOf : α → String) :
    createdAll (l.map (fun a => Op.search (qOf a))) = [] := by
  induction l with
  | nil => rfl
  | cons a rest ih => simpa [createdAll_cons, createdOf] using ih

theorem folderOps_passive (env : Env) (folder : Option String) :
    ∀ op ∈ folderOps env folder, targetsCreated [] op = true := by
  intro op hop
  rcases folder with _ | fname
  · simp [folderOps] at hop
  · simp only [folderOps] at hop
    split at hop
    · simp at hop
    · split at hop
      · simp at hop
      · simp only [List.mem_singleton] at hop
        subst hop
        rfl

theorem benign_create_item (env : Env) (bt : String) (meta : Option ItemMeta)
    (it? : Option String) (folder : Option String) (c : List String) :
    benign c (create_item env bt meta it? folder).2 = true := by
  apply benign_of_passive
  intro op hop
  unfold create_item at hop
  rcases ha : env.addRes with _ | i <;> simp only [ha] at hop
  · rcases List.mem_cons.mp hop with rfl | hop1
    · rfl
    · exact folderOps_passive env folder op hop1
  · rcases List.mem_cons.mp hop with rfl | hop1
    · rfl
    · rcases List.mem_append.mp hop1 with h1 | h2
      · exact folderOps_passive env folder op h1
      · obtain rfl := List.mem_singleton.mp h2
        rfl

theorem create_item_created (env : Env) (bt : String) (meta : Option ItemMeta)
    (it? : Option String) (folder : Option String) (i : String)
    (h : (create_item env bt meta it? folder).1 = .ok i) :
    i ∈ createdAll (create_item env bt meta it? folder).2 := by
  unfold create_item at h ⊢
  rcases ha : env.addRes with _ | j <;> simp only [ha] at h
  · simp at h
  · simp only [Except.ok.injEq] at h
    subst h
    simp [createdAll_cons, createdAll_append, createdAll, createdOf]

theorem benign_cfsi (env : Env) (title : String) (c : List String) :
    benign c (create_feature_service_item env title).2 = true := by
  unfold create_feature_service_item
  rcases hc : env.createServiceRes with _ | csr
  · simp [benign]
  · rcases csr with _ | sid <;> simp [benign, targetsCreated, createdOf]

theorem cfsi_created (env : Env) (title : String) (r : String)
    (h : (create_feature_service_item env title).1 = some r) :
    r ∈ createdAll (create_feature_service_item env title).2 := by
  unfold create_feature_service_item at h ⊢
  rcases hc : env.createServiceRes with _ | csr <;> simp only [hc] at h
  · simp at h
  · rcases csr with _ | sid
    · simp at h
    · simp only [Option.some.injEq] at h
      subst h
      simp [createdAll, createdOf]

theorem benign_publishPhase (env : Env) (meta : Option ItemMeta) (t : String)
    (km : Bool) (c : List String) :
    benign c (publishPhase env meta t km).2 = true := by
  unfold publishPhase
  rcases hp : env.publishRes with _ | pr
  · exact benign_cfsi env t c
  · rcases pr with _ | pid
    · simp [benign]
    · by_cases hk : (km && meta.isSome) = true
      · rcases env.getAfterPublish with _ | u <;>
          simp [hk, benign, targetsCreated, createdOf, List.mem_append]
      · simp [hk, benign, targetsCreated, createdOf]

theorem publishPhase_created (env : Env) (meta : Option ItemMeta) (t : String)
    (km : Bool) (r : String)
    (h : (publishPhase env meta t km).1 = some r) :
    r ∈ createdAll (publishPhase env meta t km).2 := by
  unfold publishPhase at h ⊢
  rcases hp : env.publishRes with _ | pr <;> simp only [hp] at h
  · exact cfsi_created env t r h
  · rcases pr with _ | pid
    · simp at h
    · simp only [Option.some.injEq] at h
      subst h
      simp [createdAll_cons, createdOf]

theorem benign_fsz (env : Env) (dir : String) (meta : Option ItemMeta)
    (t : String) (km : Bool) (fs : FS) (c : List String) :
    benign c (restore_feature_service_from_zip env dir meta t km fs).trace
      = true := by
  unfold restore_feature_service_from_zip
  rcases hg : find_geodatabase env.dirTree.walk with _ | gdb0
  · simp [benign]
  · by_cases h1 : strEndsWith gdb0 ".zip" = true <;>
      simp only [h1, if_true, if_false]
    · by_cases h2 : env.gdbZipExtractRaises <;> simp only [h2, if_true, if_false]
      · simp [benign]
      · by_cases h3 : strEndsWith (findGdbAfterExtract env.gdbZipWalk gdb0) ".gdb" = true <;>
          simp only [h3, if_true, if_false]
        · simpa using benign_publishPhase env meta t km c
        · simp [benign]
    · simpa using benign_publishPhase env meta t km c

theorem fsz_created (env : Env) (dir : String) (meta : Option ItemMeta)
    (t : String) (km : Bool) (fs : FS) (r : String)
    (h : (restore_feature_service_from_zip env dir meta t km fs).result
      = some r) :
    r ∈ createdAll (restore_feature_service_from_zip env dir meta t km fs).trace := by
  unfold restore_feature_service_from_zip at h ⊢
  rcases hg : find_geodatabase env.dirTree.walk with _ | gdb0 <;>
    simp only [hg] at h
  · simp at h
  · by_cases h1 : strEndsWith gdb0 ".zip" = true <;>
      simp only [h1, if_true, if_false] at h ⊢
    · by_cases h2 : env.gdbZipExtractRaises <;>
        simp only [h2, if_true, if_false] at h ⊢
      · simp at h
      · by_cases h3 : strEndsWith (findGdbAfterExtract env.gdbZipWalk gdb0) ".gdb" = true <;>
          simp only [h3, if_true, if_false] at h ⊢
        · exact publishPhase_created env meta t km r (by simpa using h)
        · simp at h
    · exact publishPhase_created env meta t km r (by simpa using h)

theorem benign_restore_resources (env : Env) (iid : String)
    (rz : Option String) (fs : FS) (c : List String) (h : iid ∈ c) :
    benign c (restore_resources env iid rz fs).2 = true := by
  unfold restore_resources
  rcases rz with _ | rzp
  · simp [benign]
  · by_cases hr : env.resourcesExtractRaises <;>
      simp only [hr, if_true, if_false]
    · simp [benign]
    · simpa using benign_addResources env.resourceFiles env.resourceAddFails iid c h

theorem benign_attachResources (env : Env) (rz : Option String)
    (created : Option String × FS × List Op) (c : List String)
    (hb : ∀ c', benign c' created.2.2 = true)
    (hc : ∀ i, created.1 = some i → i ∈ createdAll created.2.2) :
    benign c (attachResources env rz created).trace = true := by
  obtain ⟨r, fs1, ops⟩ := created
  simp only at hb hc
  rcases r with _ | iid
  · simpa [attachResources] using hb c
  · have hiid : iid ∈ createdAll ops := hc iid rfl
    unfold attachResources
    rcases hg : env.getCreatedItem with _ | u
    · rw [benign_append, Bool.and_eq_true]
      refine ⟨hb c, ?_⟩
      simp [benign, targetsCreated]
    · rcases u with _ | u
      · rw [benign_append, Bool.and_eq_true]
        refine ⟨hb c, ?_⟩
        simp [benign, targetsCreated]
      · rw [benign_append, benign_append, Bool.and_eq_true, Bool.and_eq_true]
        refine ⟨⟨hb c, ?_⟩, ?_⟩
        · simp [benign, targetsCreated]
        · apply benign_restore_resources
          rw [createdAll_append]
          exact List.mem_append_right _ (List.mem_append_left _ hiid)

theorem benign_zip_body (env : Env) (base : String) (km : Bool) (ts : String)
    (fs : FS) (c : List String) :
    benign c (restore_zip_body env base km ts fs).trace = true := by
  unfold restore_zip_body
  apply benign_attachResources
  · intro c'
    split
    · exact benign_fsz env base _ _ km fs c'
    · rcases hci : create_item env
        ((load_backup_artifacts env base).base_title ++ "_" ++ ts)
        (if km then (load_backup_artifacts env base).meta else none)
        (some (((load_backup_artifacts env base).meta.bind ItemMeta.mtype).getD
          "Web Map")) none with ⟨r, ops⟩
      have hb := benign_create_item env
        ((load_backup_artifacts env base).base_title ++ "_" ++ ts)
        (if km then (load_backup_artifacts env base).meta else none)
        (some (((load_backup_artifacts env base).meta.bind ItemMeta.mtype).getD
          "Web Map")) none c'
      rw [hci] at hb
      rcases r with _ | iid <;> simpa using hb
  · intro i
    split
    · intro hi
      exact fsz_created env base _ _ km fs i hi
    · rcases hci : create_item env
        ((load_backup_artifacts env base).base_title ++ "_" ++ ts)
        (if km then (load_backup_artifacts env base).meta else none)
        (some (((load_backup_artifacts env base).meta.bind ItemMeta.mtype).getD
          "Web Map")) none with ⟨r, ops⟩
      rcases r with _ | iid
      · intro hi
        simp at hi
      · intro hi
        simp only [Option.some.injEq] at hi
        subst hi
        have h2 := create_item_created env
          ((load_backup_artifacts env base).base_title ++ "_" ++ ts)
          (if km then (load_backup_artifacts env base).meta else none)
          (some (((load_backup_artifacts env base).meta.bind ItemMeta.mtype).getD
            "Web Map")) none iid (by rw [hci])
        rw [hci] at h2
        simpa using h2

theorem benign_restore_zip (env : Env) (zip_path : String) (km : Bool)
    (ts : String) (fs : FS) (c : List String) :
    benign c (restore_zip env zip_path km ts fs).trace = true := by
  unfold restore_zip
  by_cases h1 : env.zipIsFile <;> simp only [h1, Bool.not_true, Bool.not_false,
    if_true, if_false]
  · by_cases h2 : env.extractRaises <;> simp only [h2, if_true, if_false]
    · simp [benign]
    · exact benign_zip_body env (splitextBase zip_path) km ts _ c
  · simp [benign]

theorem benign_ceUpdOps (ts : String) (items : List ImpItem) (c : List String)
    (h : ∀ it ∈ items, it.id ∈ c) :
    benign c (ceUpdOps ts items) = true := by
  apply benign_updates
  intro it hit
  exact h it (List.mem_of_mem_filter hit)

theorem benign_ceConflictOps (pkg : List (String × PkgInfo))
    (items : List ImpItem) (c : List String) :
    benign c (ceConflictOps pkg items) = true := by
  simp only [ceConflictOps]
  split
  · simp [benign]
  · apply benign_search_list

theorem createdAll_ceUpdOps (ts : String) (items : List ImpItem) :
    createdAll (ceUpdOps ts items) = [] := by
  apply createdAll_map_updates

theorem benign_ce_base (items : List ImpItem) (pkg : List (String × PkgInfo))
    (ts : String) (c : List String) :
    benign c (Op.importContent (items.map ImpItem.id) ::
      ceUpdOps ts items ++ ceConflictOps pkg items) = true := by
  simp only [benign, createdOf, List.append_eq, Bool.and_eq_true]
  refine ⟨rfl, ?_⟩
  rw [benign_append, Bool.and_eq_true]
  refine ⟨?_, benign_ceConflictOps pkg items _⟩
  apply benign_ceUpdOps
  intro it hit
  exact List.mem_append_right _ (List.mem_map_of_mem ImpItem.id hit)

theorem benign_ce (env : Env) (ts : String) (c : List String) :
    benign c (restore_contentexport env ts).trace = true := by
  unfold restore_contentexport
  cases hce : env.ceIsFile
  · simp [benign]
  · cases hocm : env.hasOCM
    · simp [benign]
    · rcases hli : env.listItems with _ | pkg
      · simp [benign]
      · by_cases hpe : pkg.isEmpty = true
        · simp [hpe, benign]
        · rcases him : env.importResult with _ | oi
          · simp [hpe, benign]
          · rcases oi with _ | items
            · simp [hpe, benign]
            · simp only [Bool.not_true, Bool.not_false, Bool.false_eq_true,
                if_false, hpe]
              split
              · simpa using benign_ce_base items pkg ts c
              · have hfull : benign c ((Op.importContent (items.map ImpItem.id) ::
                    ceUpdOps ts items ++ ceConflictOps pkg items) ++
                    ((ceProcessed items).map ImpItem.id).map Op.getItem) = true := by
                  rw [benign_append, Bool.and_eq_true]
                  exact ⟨benign_ce_base items pkg ts c, benign_get_list _ _⟩
                split
                · simpa using hfull
                · simpa using hfull

theorem benign_body (env : Env) (p : String) (km : Bool) (ts : String)
    (fs : FS) :
    ∀ succ fmt tr fs', restore_backup_body env p km ts fs = .ok (succ, fmt, tr, fs') →
      benign [] tr = true := by
  intro succ fmt tr fs' h
  unfold restore_backup_body at h
  by_cases hc : env.connectRaises
  · rw [if_pos hc] at h
    cases h
  · rw [if_neg hc] at h
    by_cases hf : is_contentexport p = true
    · rw [if_pos hf] at h
      simp only [Except.ok.injEq, Prod.mk.injEq] at h
      obtain ⟨-, -, h3, -⟩ := h
      rw [← h3]
      exact benign_ce env ts []
    · rw [if_neg hf] at h
      simp only [Except.ok.injEq, Prod.mk.injEq] at h
      obtain ⟨-, -, h3, -⟩ := h
      rw [← h3]
      exact benign_restore_zip env p km ts fs []

/-- C1: a restore run never deletes a portal item and never mutates a
pre-existing one: in the trace of every run, no delete operation
occurs and every update or resource-upload operation targets an item
id created earlier in the same run (by add, bulk import, publish or
create-service), so naming collisions only ever retitle the new item
and never overwrite an existing one. -/
theorem C1_never_deletes_or_mutates_preexisting (env : Env)
    (backup_path : String) (km : Bool) (ts : String) (fs : FS) :
    benign [] (restore_backup env backup_path km ts fs).trace = true := by
  unfold restore_backup
  split
  · simp [benign]
  split
  · simp [benign]
  split
  · simp [benign]
  split
  · simp [benign]
  · rename_i succ fmt tr fs' heq
    exact benign_body env backup_path km ts fs succ fmt tr fs' heq

/-! ## Concrete environments used by witnesses and counterexamples -/

/-- A nominal environment: the backup file exists, extraction succeeds,
the extracted directory is empty, the title search finds no match and
the add call returns a fresh id. -/
def envDefault : Env where
  pathExists := true
  pathIsFile := true
  sizeRaises := false
  connectRaises := false
  ceIsFile := true
  hasOCM := true
  listItems := none
  importResult := none
  verifyGet := fun _ => none
  zipIsFile := true
  extractRaises := false
  dirTree := ⟨[], [], []⟩
  metaJson := none
  dataTruthy := false
  searchRes := some []
  addRes := some "newid1"
  folders := []
  createFolderRaises := false
  gdbZipExtractRaises := false
  gdbZipWalk := []
  publishRes := none
  getAfterPublish := none
  createServiceRes := none
  getCreatedItem := some none
  resourcesExtractRaises := false
  resourceFiles := []
  resourceAddFails := fun _ => false

/-- The timestamp used by the concrete runs. -/
def tsRun : String := "20250101_000000"

/-! ## C10: the keep-metadata flag -/

/-- C10: for every command-line argument list the parsed keep_metadata
option is True: the flag is store_true with default True, so metadata
preservation cannot be disabled from the command line. -/
theorem C10_keep_metadata_always_true (argv : List String) :
    (parse_args argv).keep_metadata = true := by
  unfold parse_args storeTrue
  cases argv.contains "--keep-metadata" <;> rfl

/-! ## C5: format dispatch -/

/-- C5: once the entry checks pass, `restore_backup` dispatches to the
export-package path exactly when the path ends case-insensitively in
".contentexport", and to the zip path otherwise. -/
theorem C5_dispatch_by_extension (env : Env) (backup_path : String)
    (km : Bool) (ts : String) (fs : FS)
    (h1 : env.pathExists = true) (h2 : env.pathIsFile = true)
    (h3 : env.sizeRaises = false) (h4 : env.connectRaises = false) :
    (restore_backup env backup_path km ts fs).fmt =
      some (if is_contentexport backup_path then Fmt.ocm else Fmt.zip) ∧
    is_contentexport backup_path =
      strEndsWith (strToLower backup_path) ".contentexport" := by
  refine ⟨?_, rfl⟩
  unfold restore_backup restore_backup_body
  by_cases hf : is_contentexport backup_path = true <;>
    simp [h1, h2, h3, h4, hf]

theorem C5_dispatch_witness :
    (restore_backup envDefault "Archive.CONTENTEXPORT" true tsRun []).fmt =
      some (if is_contentexport "Archive.CONTENTEXPORT" then Fmt.ocm else Fmt.zip) ∧
    (restore_backup envDefault "archive.tar" true tsRun []).fmt =
      some (if is_contentexport "archive.tar" then Fmt.ocm else Fmt.zip) ∧
    is_contentexport "Archive.CONTENTEXPORT" = true ∧
    is_contentexport "archive.tar" = false :=
  ⟨(C5_dispatch_by_extension envDefault "Archive.CONTENTEXPORT" true tsRun []
      rfl rfl rfl rfl).1,
   (C5_dispatch_by_extension envDefault "archive.tar" true tsRun []
      rfl rfl rfl rfl).1,
   by decide, by decide⟩

/-! ## C4: exit codes and top-level exception handling -/

/-- C4: the process exit code is always 0 or 1; it is 0 exactly when
the restore succeeded; and an exception escaping the restore try block
(the connect step) is caught and converted to exit 1 instead of
propagating. -/
theorem C4_exit_codes (env : Env) (argv : List String) (ts : String)
    (fs : FS) :
    (main_exit env argv ts fs = 0 ∨ main_exit env argv ts fs = 1) ∧
    (main_exit env argv ts fs = 0 ↔
      (restore_backup env (parse_args argv).backup
        (parse_args argv).keep_metadata ts fs).success = true) ∧
    (env.connectRaises = true → env.pathExists = true →
      env.pathIsFile = true → env.sizeRaises = false →
      main_exit env argv ts fs = 1) := by
  refine ⟨?_, ?_, ?_⟩
  · by_cases h : (restore_backup env (parse_args argv).backup
        (parse_args argv).keep_metadata ts fs).success = true
    · left
      simp [main_exit, h]
    · right
      simp [main_exit, h]
  · by_cases h : (restore_backup env (parse_args argv).backup
        (parse_args argv).keep_metadata ts fs).success = true <;>
      simp [main_exit, h]
  · intro hc h1 h2 h3
    have hb : restore_backup env (parse_args argv).backup
        (parse_args argv).keep_metadata ts fs = ⟨false, none, [], fs⟩ := by
      unfold restore_backup restore_backup_body
      simp [h1, h2, h3, hc]
    simp [main_exit, hb]

/-- The environment in which connecting to the portal raises. -/
def envConnRaise : Env := { envDefault with connectRaises := true }

theorem C4_exit_codes_witness :
    main_exit envConnRaise ["--backup", "b.zip"] tsRun [] = 1 :=
  (C4_exit_codes envConnRaise ["--backup", "b.zip"] tsRun []).2.2
    rfl rfl rfl rfl

/-! ## C8: finders prefer the top level -/

/-- C8: each of the four artifact finders returns the top-level match
whenever one exists, and only otherwise falls back to the recursive
walk. -/
theorem C8_finders_prefer_top_level (dir : String) (d : DirTree) :
    (∀ f, d.top.find? isMetaName = some f →
      find_metadata_file dir d = some (dir ++ "/" ++ f)) ∧
    (∀ f, d.top.find? isDataName = some f →
      find_data_file dir d = some (dir ++ "/" ++ f)) ∧
    (∀ f, d.top.find? isThumbName = some f →
      find_thumbnail dir d = some (dir ++ "/" ++ f)) ∧
    (d.topFiles.contains "resources.zip" = true →
      find_resources_zip dir d = some (dir ++ "/" ++ "resources.zip")) := by
  refine ⟨?_, ?_, ?_, ?_⟩
  · intro f hf
    unfold find_metadata_file
    rw [hf]
  · intro f hf
    unfold find_data_file
    rw [hf]
  · intro f hf
    unfold find_thumbnail
    rw [hf]
  · intro h
    unfold find_resources_zip
    rw [if_pos h]

/-- A directory with all four artifacts at top level and a decoy copy
of each in a subdirectory reached only by the walk. -/
def dWit : DirTree :=
  ⟨["x_metadata.json", "y_data.json", "thumbnail.png", "resources.zip"],
   ["x_metadata.json", "y_data.json", "thumbnail.png", "resources.zip"],
   [("d/sub", [], ["z_metadata.json", "w_data.json", "thumbnail.jpg",
     "resources.zip"])]⟩

theorem C8_finders_witness :
    find_metadata_file "d" dWit = some ("d" ++ "/" ++ "x_metadata.json") ∧
    find_data_file "d" dWit = some ("d" ++ "/" ++ "y_data.json") ∧
    find_thumbnail "d" dWit = some ("d" ++ "/" ++ "thumbnail.png") ∧
    find_resources_zip "d" dWit = some ("d" ++ "/" ++ "resources.zip") := by
  obtain ⟨h1, h2, h3, h4⟩ := C8_finders_prefer_top_level "d" dWit
  exact ⟨h1 _ (by decide), h2 _ (by decide), h3 _ (by decide), h4 (by decide)⟩

/-! ## C3: temporary-directory cleanup -/

theorem attachResources_mem (env : Env) (rz : Option String)
    (created : Option String × FS × List Op) (op : Op)
    (h : op ∈ created.2.2) :
    op ∈ (attachResources env rz created).trace := by
  obtain ⟨r, fs1, ops⟩ := created
  simp only at h
  rcases r with _ | iid
  · simpa [attachResources] using h
  · unfold attachResources
    rcases env.getCreatedItem with _ | u
    · exact List.mem_append_left _ h
    · rcases u with _ | u
      · exact List.mem_append_left _ h
      · exact List.mem_append_left _ (List.mem_append_left _ h)

/-- C9 (amended): all resolved artifacts are optional; with no metadata
file the metadata is the empty dictionary, the base title is the
extraction directory's base name, and the item is created with type
"Web Map" under that base name with the run timestamp appended (the
timestamp suffix is what the original claim omits). -/
theorem C9_webmap_default_when_no_metadata (env : Env) (zip_path : String)
    (km : Bool) (ts : String) (fs : FS) (i : String)
    (hfile : env.zipIsFile = true) (hex : env.extractRaises = false)
    (hmf : find_metadata_file (splitextBase zip_path) env.dirTree = none)
    (hs : env.searchRes = some []) (ha : env.addRes = some i) :
    (load_backup_artifacts env (splitextBase zip_path)).base_title =
      basename (splitextBase zip_path) ∧
    (load_backup_artifacts env (splitextBase zip_path)).meta = none ∧
    Op.addItem (basename (splitextBase zip_path) ++ "_" ++ ts) "Web Map" i ∈
      (restore_zip env zip_path km ts fs).trace := by
  have hart1 : (load_backup_artifacts env (splitextBase zip_path)).base_title =
      basename (splitextBase zip_path) := by
    unfold load_backup_artifacts
    rw [hmf]
  have hart2 : (load_backup_artifacts env (splitextBase zip_path)).meta =
      none := by
    unfold load_backup_artifacts
    rw [hmf]
  refine ⟨hart1, hart2, ?_⟩
  unfold restore_zip
  rw [hfile, hex]
  simp only [Bool.not_true, Bool.false_eq_true, if_false]
  simp only [restore_zip_body, hart1, hart2]
  have hcond : ((Option.bind (none : Option ItemMeta) ItemMeta.mtype).getD
      "Web Map" == "Feature Service") = false := by decide
  rw [hcond]
  simp only [Bool.false_eq_true, if_false, ite_self]
  unfold create_item
  rw [hs, ha]
  apply attachResources_mem
  exact List.mem_cons_of_mem _ (List.mem_cons_self _ _)

/-- C9 counterexample: in a run over a backup with no metadata file,
the created item's title is the base name with the run timestamp
appended, not the base name itself, so "the extraction directory's
base name as the title" is false as stated. -/
theorem C9_counterexample :
    find_metadata_file "mybackup" envDefault.dirTree = none ∧
    Op.addItem "mybackup_20250101_000000" "Web Map" "newid1" ∈
      (restore_zip envDefault "mybackup.zip" true tsRun []).trace ∧
    Op.addItem "mybackup" "Web Map" "newid1" ∉
      (restore_zip envDefault "mybackup.zip" true tsRun []).trace :=
  ⟨rfl, by decide, by decide⟩

theorem C9_webmap_default_witness :
    (load_backup_artifacts envDefault (splitextBase "mybackup.zip")).base_title =
      basename (splitextBase "mybackup.zip") ∧
    (load_backup_artifacts envDefault (splitextBase "mybackup.zip")).meta =
      none ∧
    Op.addItem (basename (splitextBase "mybackup.zip") ++ "_" ++ tsRun)
      "Web Map" "newid1" ∈
      (restore_zip envDefault "mybackup.zip" true tsRun []).trace :=
  C9_webmap_default_when_no_metadata envDefault "mybackup.zip" true tsRun []
    "newid1" rfl rfl (by decide) rfl rfl

/-! ## C7: feature-service geodatabase location and fallback -/

/-- C7: with no geodatabase in the walk the restore fails with an
empty portal trace; with a geodatabase found, a successful publish
yields its item id with a publish call in the trace; and when the
publish call raises, the run falls back to creating a bare feature
service whose service name is the title with spaces replaced by
underscores, truncated to 50 characters, instead of failing. -/
theorem C7_feature_service_fallback (env : Env) (dir : String)
    (meta : Option ItemMeta) (t : String) (km : Bool) (fs : FS) :
    (find_geodatabase env.dirTree.walk = none →
      (restore_feature_service_from_zip env dir meta t km fs).result = none ∧
      (restore_feature_service_from_zip env dir meta t km fs).trace = []) ∧
    (∀ g, find_geodatabase env.dirTree.walk = some g →
      strEndsWith g ".zip" = false →
      ∀ pid, env.publishRes = some (some pid) →
        (restore_feature_service_from_zip env dir meta t km fs).result =
          some pid ∧
        Op.publish t pid ∈
          (restore_feature_service_from_zip env dir meta t km fs).trace) ∧
    (∀ g, find_geodatabase env.dirTree.walk = some g →
      strEndsWith g ".zip" = false →
      env.publishRes = none →
      ∀ sid, env.createServiceRes = some (some sid) →
        (restore_feature_service_from_zip env dir meta t km fs).result =
          some sid ∧
        Op.createService (serviceNameOf t) t sid ∈
          (restore_feature_service_from_zip env dir meta t km fs).trace) ∧
    serviceNameOf t = strTake (strReplace t " " "_") 50 := by
  refine ⟨?_, ?_, ?_, rfl⟩
  · intro h
    unfold restore_feature_service_from_zip
    rw [h]
    exact ⟨rfl, rfl⟩
  · intro g hg hz pid hp
    unfold restore_feature_service_from_zip
    rw [hg]
    simp only [hz, Bool.false_eq_true, if_false]
    unfold publishPhase
    rw [hp]
    exact ⟨rfl, List.mem_cons_self _ _⟩
  · intro g hg hz hp sid hcs
    unfold restore_feature_service_from_zip
    rw [hg]
    simp only [hz, Bool.false_eq_true, if_false]
    unfold publishPhase
    rw [hp]
    unfold create_feature_service_item
    rw [hcs]
    exact ⟨rfl, List.mem_cons_self _ _⟩

/-- The environment whose extraction directory holds a file
geodatabase, where publishing raises and the bare-service fallback
succeeds. -/
def envFS : Env :=
  { envDefault with
    dirTree := ⟨[], [], [("backup", ["data.gdb"], [])]⟩
    publishRes := none
    createServiceRes := some (some "svc1") }

theorem C7_feature_service_witness :
    (restore_feature_service_from_zip envFS "backup" none
      "My Feature Service" true []).result = some "svc1" ∧
    Op.createService "My_Feature_Service" "My Feature Service" "svc1" ∈
      (restore_feature_service_from_zip envFS "backup" none
        "My Feature Service" true []).trace ∧
    (restore_feature_service_from_zip envDefault "backup" none "T" true
      []).result = none := by
  obtain ⟨-, -, h3, -⟩ :=
    C7_feature_service_fallback envFS "backup" none "My Feature Service" true []
  obtain ⟨r1, r2⟩ := h3 "backup/data.gdb" (by decide) (by decide) rfl "svc1" rfl
  refine ⟨r1, ?_, ?_⟩
  · have hname : serviceNameOf "My Feature Service" = "My_Feature_Service" := by
      decide
    rwa [hname] at r2
  · exact ((C7_feature_service_fallback envDefault "backup" none "T" true
      []).1 rfl).1

/-! ## C6: contentexport rename, verification and success reporting -/

/-- C6: once the bulk importer returns its list, every entry is
renamed with the single run-wide timestamp appended to its title,
every imported id is re-fetched for verification, an id whose fetch
returns nothing is reported in the unverified list, and overall
success is reported exactly when at least one item was imported. -/
theorem C6_contentexport_rename_and_verify (env : Env) (ts : String)
    (pkg : List (String × PkgInfo)) (items : List ImpItem)
    (hce : env.ceIsFile = true) (hocm : env.hasOCM = true)
    (hli : env.listItems = some pkg) (hne : pkg ≠ [])
    (him : env.importResult = some (some items))
    (hacc : ∀ it ∈ items, it.accessRaises = false) :
    (∀ it ∈ items, Op.updateItem it.id (it.title ++ "_" ++ ts) ∈
      (restore_contentexport env ts).trace) ∧
    (∀ it ∈ items, Op.getItem it.id ∈ (restore_contentexport env ts).trace) ∧
    (∀ it ∈ items, env.verifyGet it.id = some none →
      it.id ∈ (restore_contentexport env ts).unverified) ∧
    ((restore_contentexport env ts).success = !items.isEmpty) := by
  have hproc : ceProcessed items = items := by
    unfold ceProcessed
    rw [List.filter_eq_self]
    intro a ha
    simp [hacc a ha]
  have hpe : pkg.isEmpty = false := by
    rw [List.isEmpty_eq_false]
    exact hne
  by_cases hie : items = []
  · subst hie
    refine ⟨by simp, by simp, by simp, ?_⟩
    unfold restore_contentexport
    rw [hce, hocm, hli, him]
    simp [hpe, ceProcessed]
  · have hpne : (((ceProcessed items).map ImpItem.id)).isEmpty = false := by
      rw [hproc]
      simp only [List.isEmpty_eq_false, ne_eq, List.map_eq_nil_iff]
      exact hie
    have htrace : (restore_contentexport env ts).trace =
        (Op.importContent (items.map ImpItem.id) ::
          ceUpdOps ts items ++ ceConflictOps pkg items) ++
          ((ceProcessed items).map ImpItem.id).map Op.getItem := by
      unfold restore_contentexport
      rw [hce, hocm, hli, him]
      simp only [Bool.not_true, Bool.false_eq_true, if_false, hpe, hpne]
      split <;> rfl
    have hunver : (restore_contentexport env ts).unverified =
        ((ceProcessed items).map ImpItem.id).filter (isNotFound env) := by
      unfold restore_contentexport
      rw [hce, hocm, hli, him]
      simp only [Bool.not_true, Bool.false_eq_true, if_false, hpe, hpne]
      split <;> rfl
    have hsucc : (restore_contentexport env ts).success = true := by
      unfold restore_contentexport
      rw [hce, hocm, hli, him]
      simp only [Bool.not_true, Bool.false_eq_true, if_false, hpe, hpne]
      split <;> rfl
    refine ⟨?_, ?_, ?_, ?_⟩
    · intro it hit
      have h1 : Op.updateItem it.id (it.title ++ "_" ++ ts) ∈
          ceUpdOps ts items := by
        unfold ceUpdOps
        rw [hproc]
        exact List.mem_map_of_mem _ hit
      rw [htrace]
      exact List.mem_append_left _
        (List.mem_cons_of_mem _ (List.mem_append_left _ h1))
    · intro it hit
      have h2 : Op.getItem it.id ∈
          ((ceProcessed items).map ImpItem.id).map Op.getItem := by
        rw [hproc]
        exact List.mem_map_of_mem _ (List.mem_map_of_mem _ hit)
      rw [htrace]
      exact List.mem_append_right _ h2
    · intro it hit hvg
      rw [hunver]
      refine List.mem_filter.mpr ⟨?_, ?_⟩
      · rw [hproc]
        exact List.mem_map_of_mem _ hit
      · unfold isNotFound
        rw [hvg]
    · rw [hsucc]
      have : items.isEmpty = false := by
        rw [List.isEmpty_eq_false]
        exact hie
      rw [this]
      rfl

/-- The environment whose contentexport package imports two items, one
of which cannot be re-fetched after import. -/
def envCE : Env :=
  { envDefault with
    listItems := some [("src1", ⟨"Roads", "Web Map"⟩)]
    importResult := some (some
      [⟨"id1", "Roads", "Web Map", false, false⟩,
       ⟨"id2", "Parcels", "Web Map", false, false⟩])
    verifyGet := fun i => if i == "id1" then some (some ⟨"id1", "Roads", "Web Map"⟩)
      else some none }

theorem C6_contentexport_witness :
    Op.updateItem "id1" ("Roads" ++ "_" ++ tsRun) ∈
      (restore_contentexport envCE tsRun).trace ∧
    Op.updateItem "id2" ("Parcels" ++ "_" ++ tsRun) ∈
      (restore_contentexport envCE tsRun).trace ∧
    Op.getItem "id2" ∈ (restore_contentexport envCE tsRun).trace ∧
    "id2" ∈ (restore_contentexport envCE tsRun).unverified ∧
    (restore_contentexport envCE tsRun).success = true := by
  obtain ⟨h1, h2, h3, h4⟩ := C6_contentexport_rename_and_verify envCE tsRun
    [("src1", ⟨"Roads", "Web Map"⟩)]
    [⟨"id1", "Roads", "Web Map", false, false⟩,
     ⟨"id2", "Parcels", "Web Map", false, false⟩]
    rfl rfl rfl (by decide) rfl (by decide)
  exact ⟨h1 ⟨"id1", "Roads", "Web Map", false, false⟩ (by decide),
    h1 ⟨"id2", "Parcels", "Web Map", false, false⟩ (by decide),
    h2 ⟨"id2", "Parcels", "Web Map", false, false⟩ (by decide),
    h3 ⟨"id2", "Parcels", "Web Map", false, false⟩ (by decide) (by decide),
    h4⟩

end AGOLRestore
